import Mathlib

/-!
Shallow embedding of `src/services/payment-processor/parse-instruction.js`.

JavaScript values are modelled as follows: strings are `String`, numbers
carrying account balances and amounts are `Int` (the program only ever adds
and subtracts integer amounts), `undefined`/`null` string slots are
`Option String` (`none` = absent), thrown application errors are the
`Except` error channel, and an uncaught JavaScript `TypeError` (reading a
property of `undefined`) is the dedicated error value `PayError.jsTypeError`.
The wall clock consumed by `shouldExecuteNow` is an explicit `SimpleDate`
parameter (the spec treats "today" as an injected external clock).
-/

namespace PaymentProcessor

/-- Model of the application error taxonomy (`PaymentMessages.*` codes thrown
via `throwAppError`), plus `jsTypeError` for an uncaught JavaScript
`TypeError`, which is not a typed failure of the taxonomy. -/
inductive PayError where
  | invalidKeywordOrder
  | invalidAmount
  | unsupportedCurrency
  | missingKeyword
  | malformedInstruction
  | invalidAccountId
  | sameAccountError
  | accountNotFound
  | currencyMismatch
  | insufficientFunds
  | invalidDateFormat
  | jsTypeError
deriving DecidableEq, Repr

/-- Input account record: `{ id: string, balance: number, currency: string }`. -/
structure Account where
  id : String
  balance : Int
  currency : String
deriving DecidableEq, Repr

/-- The canonical instruction produced by `parseDebitFormat` /
`parseCreditFormat`. The account fields are `Option String` because the
token after the `account` keyword may be absent (`undefined` in JS);
`execute_by` is `null` when no `on <date>` clause is present. -/
structure ParsedInstr where
  type : String
  amount : Int
  currency : String
  debit_account : Option String
  credit_account : Option String
  execute_by : Option String
deriving DecidableEq, Repr

/-- Projected account record pushed by `processAccounts`. -/
structure ProjAccount where
  id : String
  balance : Int
  balance_before : Int
  currency : String
deriving DecidableEq, Repr

/-- The response record built by `parseInstruction`. -/
structure Response where
  type : String
  amount : Int
  currency : String
  debit_account : Option String
  credit_account : Option String
  execute_by : Option String
  status : String
  status_reason : String
  status_code : String
  accounts : List ProjAccount
deriving DecidableEq, Repr

/-- The request body after the upstream schema validation
(`accounts[] { id string, balance number, currency string }, instruction string`). -/
structure ServiceData where
  accounts : List Account
  instruction : String
deriving DecidableEq, Repr

/-- A calendar day (year, month 1-12, day) used to model the date-only
values compared by `shouldExecuteNow`. -/
structure SimpleDate where
  year : Int
  month : Int
  day : Int
deriving DecidableEq, Repr

/-- Modelled opaque message string `PaymentMessages.TRANSACTION_SUCCESSFUL`. -/
def TRANSACTION_SUCCESSFUL : String := "TRANSACTION_SUCCESSFUL"

/-- Modelled opaque message string `PaymentMessages.TRANSACTION_PENDING`. -/
def TRANSACTION_PENDING : String := "TRANSACTION_PENDING"

/-- `SUPPORTED_CURRENCIES` from the source. -/
def SUPPORTED_CURRENCIES : List String := ["NGN", "USD", "GBP", "GHS"]

/-- `VALID_ACCOUNT_CHARS` from the source. -/
def VALID_ACCOUNT_CHARS : String :=
  "abcdefghijklmnopqrstuvwxyzABCDEFGHIJKLMNOPQRSTUVWXYZ0123456789-_.@"

/-- `s.toLowerCase()`, character by character (the instruction text is
ASCII; `Char.toLower` agrees with JS on ASCII). -/
def jsToLower (s : String) : String :=
  ⟨s.data.map Char.toLower⟩

/-- `s.toUpperCase()`, character by character. -/
def jsToUpper (s : String) : String :=
  ⟨s.data.map Char.toUpper⟩

/-- ASCII whitespace stripped by `trim` and skipped by `parseInt`. -/
def isJsSpace (c : Char) : Bool :=
  c == ' ' || c == '\t' || c == '\n' || c == '\r' || c == '\x0b' || c == '\x0c'

/-- `s.trim()`: strip whitespace from both ends. -/
def jsTrim (s : String) : String :=
  ⟨(((s.data.dropWhile isJsSpace).reverse).dropWhile isJsSpace).reverse⟩

/-- Accumulating loop of `split(' ')`: cut the character list at every
single space, keeping empty pieces. -/
def splitSpacesAux (cur : List Char) : List Char → List String
  | [] => [⟨cur.reverse⟩]
  | c :: cs =>
    if c == ' ' then ⟨cur.reverse⟩ :: splitSpacesAux [] cs
    else splitSpacesAux (c :: cur) cs

/-- `s.split(' ')` of JavaScript: pieces between single spaces. -/
def jsSplitSpaces (s : String) : List String :=
  splitSpacesAux [] s.data

/-- JavaScript array indexing `words[i]`: `undefined` (`none`) when out of
range (a negative index is also `undefined`). -/
def jsIndex (words : List String) (i : Int) : Option String :=
  if i < 0 then none else words.get? i.toNat

/-- Character-list search for `pat` as a contiguous run, modelling
`String.prototype.includes`. -/
def listHasInfix (pat : List Char) : List Char → Bool
  | [] => pat.isEmpty
  | c :: cs => pat.isPrefixOf (c :: cs) || listHasInfix pat cs

/-- `s.includes(pat)` on JavaScript strings. -/
def jsIncludes (s pat : String) : Bool :=
  listHasInfix pat.toList s.toList

/-- Value of a list of decimal digit characters. -/
def digitsToNat : List Char → Nat
  | [] => 0
  | c :: cs => digitsToNat cs + c.toNat.sub 48 * 10 ^ cs.length

/-- `parseInt(x, 10)`: skip leading whitespace, optional sign, then the
longest prefix of decimal digits; `none` models `NaN` (no digits, or the
argument itself `undefined` — `parseInt(undefined, 10)` stringifies to
`"undefined"` and yields `NaN`). -/
def jsParseInt10 : Option String → Option Int
  | none => none
  | some str =>
    let cs := str.toList.dropWhile isJsSpace
    let signAndRest : Int × List Char :=
      match cs with
      | '-' :: rest => (-1, rest)
      | '+' :: rest => (1, rest)
      | _ => (1, cs)
    let digits := signAndRest.2.takeWhile Char.isDigit
    if digits.isEmpty then none
    else some (signAndRest.1 * (digitsToNat digits : Int))

/-- Tokenizer: `instruction.split(' ').filter((word) => word.length > 0)`. -/
def tokenizeWords (instruction : String) : List String :=
  (jsSplitSpaces instruction).filter (fun w => w.length > 0)

/-- Scanning loop of `findKeywordIndex`, phrased on the suffix of the words
array that starts at the loop's current position: offset of the first
case-insensitive match, if any. -/
def findKeywordOffset (keyword : String) : List String → Option Nat
  | [] => none
  | w :: ws =>
    if jsToLower w == jsToLower keyword then some 0
    else (findKeywordOffset keyword ws).map (· + 1)

/-- `findKeywordIndex(words, keyword, startIndex)`: index of the first token
at or after `startIndex` equal (case-insensitively) to `keyword`, else `-1`
(the JS loop runs `i` from `startIndex` to the end and returns the first
match, which is `startIndex` plus the offset of the match in the suffix). -/
def findKeywordIndex (words : List String) (keyword : String) (startIndex : Nat := 0) : Int :=
  match findKeywordOffset keyword (words.drop startIndex) with
  | some j => (startIndex + j : Nat)
  | none => -1

/-- `isValidAccountId` on an actual string: every character belongs to
`VALID_ACCOUNT_CHARS` and the string is non-empty. -/
def isValidAccountId (accountId : String) : Bool :=
  accountId.toList.all (fun c => VALID_ACCOUNT_CHARS.toList.contains c) && accountId.length > 0

/-- Splits a string of the exact shape `YYYY-MM-DD` (the shape matched by
the source regex `^\d\x7b4\x7d-\d\x7b2\x7d-\d\x7b2\x7d$`) into its numeric
components, `none` for any other string. -/
def splitCanonicalDate (s : String) : Option (Int × Int × Int) :=
  match s.toList with
  | [y1, y2, y3, y4, '-', m1, m2, '-', d1, d2] =>
    if y1.isDigit && y2.isDigit && y3.isDigit && y4.isDigit &&
       m1.isDigit && m2.isDigit && d1.isDigit && d2.isDigit then
      some (((y1.toNat - 48) * 1000 + (y2.toNat - 48) * 100 +
             (y3.toNat - 48) * 10 + (y4.toNat - 48) : Nat),
            ((m1.toNat - 48) * 10 + (m2.toNat - 48) : Nat),
            ((d1.toNat - 48) * 10 + (d2.toNat - 48) : Nat))
    else none
  | _ => none

/-- The source's strict date regex test. -/
def dateRegexMatch (s : String) : Bool :=
  (splitCanonicalDate s).isSome

/-- Proleptic-Gregorian leap year, as used by ECMAScript dates. -/
def isLeapYear (y : Int) : Bool :=
  y % 4 == 0 && (y % 100 != 0 || y % 400 == 0)

/-- Number of days of month `m` of year `y`. -/
def daysInMonth (y m : Int) : Int :=
  if m == 2 then (if isLeapYear y then 29 else 28)
  else if m == 4 || m == 6 || m == 9 || m == 11 then 30
  else 31

/-- A (year, month, day) triple denotes an actual calendar day. -/
def calendarValid (y m d : Int) : Bool :=
  1 ≤ m && m ≤ 12 && 1 ≤ d && d ≤ daysInMonth y m

/-- Whether `Number.isNaN(new Date(s).getTime())` holds. On strings of the
canonical `YYYY-MM-DD` shape ECMAScript fully specifies the answer: the
parse succeeds exactly when the components form a real calendar day. On
every other string the engine's fallback parser is implementation-defined;
the model declares those unparseable, which is unobservable in the program
because the subsequent regex check rejects exactly those strings with the
same `INVALID_DATE_FORMAT` error. -/
def jsDateIsNaN (s : String) : Bool :=
  match splitCanonicalDate s with
  | some (y, m, d) => !(calendarValid y m d)
  | none => true

/-- Date-only value extracted by `new Date(s)` followed by
`getFullYear/getMonth/getDate`, for the canonical date strings that reach
`shouldExecuteNow` after validation; `none` models an invalid date. -/
def parseDate3 (s : String) : Option SimpleDate :=
  match splitCanonicalDate s with
  | some (y, m, d) => if calendarValid y m d then some ⟨y, m, d⟩ else none
  | none => none

/-- Millisecond order on date-only `Date` values, which on in-range
components coincides with lexicographic order on (year, month, day). -/
def dateLE (a b : SimpleDate) : Bool :=
  if a.year < b.year then true
  else if b.year < a.year then false
  else if a.month < b.month then true
  else if b.month < a.month then false
  else a.day ≤ b.day

/-- `shouldExecuteNow(executeBy)` with the evaluation clock `today` passed
explicitly: absent (or empty, JS falsy) date → execute now; otherwise
compare date-only values; an invalid date compares false (`NaN`). -/
def shouldExecuteNow (executeBy : Option String) (today : SimpleDate) : Bool :=
  match executeBy with
  | none => true
  | some s =>
    if s = "" then true
    else
      match parseDate3 s with
      | some t => dateLE t today
      | none => false

/-- The optional trailing `on <date>` clause: `executeBy` is the token after
the first `on` when that token exists and is truthy, else `null`. -/
def extractExecuteBy (words : List String) : Option String :=
  let onIndex := findKeywordIndex words "on"
  if onIndex == -1 then none
  else
    match jsIndex words (onIndex + 1) with
    | none => none
    | some s => if s = "" then none else some s

/-- `parseDebitFormat(words)`: keyword anchors are located by independent
scans — `debit`, `from` and `for` are each the first case-insensitive
occurrence in the whole list, and `to` is the first occurrence at or after
index `forIndex + 1` — then amount, currency and the two account ids are
read at fixed offsets from the anchors. -/
def parseDebitFormat (words : List String) : Except PayError ParsedInstr :=
  let debitIndex := findKeywordIndex words "debit"
  let fromIndex := findKeywordIndex words "from"
  let accountIndexAfterFrom := fromIndex + 1
  let forIndex := findKeywordIndex words "for"
  let creditIndex := forIndex + 1
  let toIndex := findKeywordIndex words "to" creditIndex.toNat
  let accountIndexAfterTo := toIndex + 1
  if debitIndex == -1 || fromIndex == -1 || forIndex == -1 ||
     creditIndex == -1 || toIndex == -1 then
    .error .invalidKeywordOrder
  else
    match jsParseInt10 (jsIndex words (debitIndex + 1)) with
    | none => .error .invalidAmount
    | some amount =>
      if amount ≤ 0 then .error .invalidAmount
      else
        match (jsIndex words (debitIndex + 2)).map jsToUpper with
        | none => .error .unsupportedCurrency
        | some currency =>
          if currency = "" || !(SUPPORTED_CURRENCIES.contains currency) then
            .error .unsupportedCurrency
          else if (jsIndex words accountIndexAfterFrom).map jsToLower ≠ some "account" then
            .error .missingKeyword
          else
            let debitAccount := jsIndex words (accountIndexAfterFrom + 1)
            if (jsIndex words accountIndexAfterTo).map jsToLower ≠ some "account" then
              .error .missingKeyword
            else
              let creditAccount := jsIndex words (accountIndexAfterTo + 1)
              .ok { type := "DEBIT", amount := amount, currency := currency,
                    debit_account := debitAccount, credit_account := creditAccount,
                    execute_by := extractExecuteBy words }

/-- `parseCreditFormat(words)`: mirror of the debit parser with the roles of
the anchors swapped (`credit`, `to`, `for`, then `from` searched from
`forIndex + 1`). -/
def parseCreditFormat (words : List String) : Except PayError ParsedInstr :=
  let creditIndex := findKeywordIndex words "credit"
  let toIndex := findKeywordIndex words "to"
  let accountIndexAfterTo := toIndex + 1
  let forIndex := findKeywordIndex words "for"
  let debitIndex := forIndex + 1
  let fromIndex := findKeywordIndex words "from" debitIndex.toNat
  let accountIndexAfterFrom := fromIndex + 1
  if creditIndex == -1 || toIndex == -1 || forIndex == -1 ||
     debitIndex == -1 || fromIndex == -1 then
    .error .invalidKeywordOrder
  else
    match jsParseInt10 (jsIndex words (creditIndex + 1)) with
    | none => .error .invalidAmount
    | some amount =>
      if amount ≤ 0 then .error .invalidAmount
      else
        match (jsIndex words (creditIndex + 2)).map jsToUpper with
        | none => .error .unsupportedCurrency
        | some currency =>
          if currency = "" || !(SUPPORTED_CURRENCIES.contains currency) then
            .error .unsupportedCurrency
          else if (jsIndex words accountIndexAfterTo).map jsToLower ≠ some "account" then
            .error .missingKeyword
          else
            let creditAccount := jsIndex words (accountIndexAfterTo + 1)
            if (jsIndex words accountIndexAfterFrom).map jsToLower ≠ some "account" then
              .error .missingKeyword
            else
              let debitAccount := jsIndex words (accountIndexAfterFrom + 1)
              .ok { type := "CREDIT", amount := amount, currency := currency,
                    debit_account := debitAccount, credit_account := creditAccount,
                    execute_by := extractExecuteBy words }

/-- The DEBIT phrase-containment check of the format detector. -/
def debitPhraseCheck (lowerInstruction : String) : Bool :=
  jsIncludes lowerInstruction "debit" &&
  jsIncludes lowerInstruction "from account" &&
  jsIncludes lowerInstruction "for credit to account"

/-- The CREDIT phrase-containment check of the format detector. -/
def creditPhraseCheck (lowerInstruction : String) : Bool :=
  jsIncludes lowerInstruction "credit" &&
  jsIncludes lowerInstruction "to account" &&
  jsIncludes lowerInstruction "for debit from account"

/-- `parseInstructionText(instruction)`: tokenize, lowercase, try the DEBIT
phrase check then the CREDIT phrase check, else `MALFORMED_INSTRUCTION`. -/
def parseInstructionText (instruction : String) : Except PayError ParsedInstr :=
  let words := tokenizeWords instruction
  let lowerInstruction := jsToLower instruction
  if debitPhraseCheck lowerInstruction then parseDebitFormat words
  else if creditPhraseCheck lowerInstruction then parseCreditFormat words
  else .error .malformedInstruction

/-- `validateParsedData(parsed, accounts)`. An absent account id
(`undefined` in JS) makes `isValidAccountId` evaluate `undefined.length`,
an uncaught `TypeError`, modelled as `jsTypeError`. -/
def validateParsedData (parsed : ParsedInstr) (accounts : List Account) :
    Except PayError Unit :=
  match parsed.debit_account with
  | none => .error .jsTypeError
  | some da =>
    if !(isValidAccountId da) then .error .invalidAccountId
    else
      match parsed.credit_account with
      | none => .error .jsTypeError
      | some ca =>
        if !(isValidAccountId ca) then .error .invalidAccountId
        else if da == ca then .error .sameAccountError
        else
          let debitAccount := accounts.find? (fun acc => acc.id == da)
          let creditAccount := accounts.find? (fun acc => acc.id == ca)
          match debitAccount with
          | none => .error .accountNotFound
          | some dAcc =>
            match creditAccount with
            | none => .error .accountNotFound
            | some cAcc =>
              if jsToUpper dAcc.currency ≠ parsed.currency then .error .currencyMismatch
              else if jsToUpper cAcc.currency ≠ parsed.currency then .error .currencyMismatch
              else if dAcc.balance < parsed.amount then .error .insufficientFunds
              else
                match parsed.execute_by with
                | none => .ok ()
                | some s =>
                  if s = "" then .ok ()
                  else if jsDateIsNaN s then .error .invalidDateFormat
                  else if !(dateRegexMatch s) then .error .invalidDateFormat
                  else .ok ()

/-- `processAccounts(accounts, parsed, shouldExecute)` in state-passing
style: the first component is the `result` array the loop pushes into, the
second is the state of the input `accounts` array after the loop — each
visited `account` object is only read (`id`, `balance`, `currency`), never
written, so the traversal passes every element through unchanged. -/
def processAccounts (accounts : List Account) (parsed : ParsedInstr)
    (shouldExecute : Bool) : List ProjAccount × List Account :=
  match accounts with
  | [] => ([], [])
  | account :: rest =>
    let tail := processAccounts rest parsed shouldExecute
    if some account.id = parsed.debit_account ∨ some account.id = parsed.credit_account then
      let balanceBefore := account.balance
      let balanceAfter :=
        if shouldExecute then
          if some account.id = parsed.debit_account then balanceBefore - parsed.amount
          else if some account.id = parsed.credit_account then balanceBefore + parsed.amount
          else balanceBefore
        else balanceBefore
      (⟨account.id, balanceAfter, balanceBefore, jsToUpper account.currency⟩ :: tail.1,
       account :: tail.2)
    else (tail.1, account :: tail.2)

/-- `parseInstruction(serviceData)` with the clock passed explicitly. The
first component is the returned response or the raised failure; the second
is the state of the caller's `accounts` array after the call. -/
def parseInstruction (serviceData : ServiceData) (today : SimpleDate) :
    Except PayError Response × List Account :=
  let instruction := jsTrim serviceData.instruction
  let accounts := serviceData.accounts
  match parseInstructionText instruction with
  | .error e => (.error e, accounts)
  | .ok parsed =>
    match validateParsedData parsed accounts with
    | .error e => (.error e, accounts)
    | .ok _ =>
      let shouldExecute := shouldExecuteNow parsed.execute_by today
      let processed := processAccounts accounts parsed shouldExecute
      (.ok { type := parsed.type, amount := parsed.amount, currency := parsed.currency,
             debit_account := parsed.debit_account, credit_account := parsed.credit_account,
             execute_by := parsed.execute_by,
             status := if shouldExecute then "successful" else "pending",
             status_reason := if shouldExecute then TRANSACTION_SUCCESSFUL else TRANSACTION_PENDING,
             status_code := if shouldExecute then "AP00" else "AP02",
             accounts := processed.1 },
       processed.2)

/-- Generic fail-fast rule runner: report the error of the first rule whose
check is false, succeed when every check holds. Used to state that the
validator applies its rules in a fixed order. -/
def firstFail : List (Bool × PayError) → Except PayError Unit
  | [] => .ok ()
  | (b, e) :: rest => if b then firstFail rest else .error e

/-- The spec's nine validation rules, in the spec's order, as check/error
pairs (written from §4.5 of the spec, for comparison with the source's
`validateParsedData`). `da`/`ca` are the debit and credit account ids. -/
def specRules (p : ParsedInstr) (accounts : List Account) (da ca : String) :
    List (Bool × PayError) :=
  [ (isValidAccountId da, .invalidAccountId),
    (isValidAccountId ca, .invalidAccountId),
    (!(da == ca), .sameAccountError),
    ((accounts.find? (fun acc => acc.id == da)).isSome, .accountNotFound),
    ((accounts.find? (fun acc => acc.id == ca)).isSome, .accountNotFound),
    ((match accounts.find? (fun acc => acc.id == da) with
      | some dAcc => jsToUpper dAcc.currency == p.currency
      | none => true), .currencyMismatch),
    ((match accounts.find? (fun acc => acc.id == ca) with
      | some cAcc => jsToUpper cAcc.currency == p.currency
      | none => true), .currencyMismatch),
    ((match accounts.find? (fun acc => acc.id == da) with
      | some dAcc => !(dAcc.balance < p.amount)
      | none => true), .insufficientFunds),
    ((match p.execute_by with
      | none => true
      | some s => if s = "" then true else !(jsDateIsNaN s) && dateRegexMatch s),
     .invalidDateFormat) ]

/-- Balance projection of a single matching account as the spec's §4.7
describes it: `balance_before` is the supplied balance, the new balance
applies the debit/credit delta only when executing now, the currency is
uppercased. -/
def specProjectAccount (parsed : ParsedInstr) (shouldExecute : Bool)
    (a : Account) : ProjAccount :=
  { id := a.id,
    balance :=
      if shouldExecute then
        if some a.id = parsed.debit_account then a.balance - parsed.amount
        else if some a.id = parsed.credit_account then a.balance + parsed.amount
        else a.balance
      else a.balance,
    balance_before := a.balance,
    currency := jsToUpper a.currency }

/-- Whether an amount token is rejected by the parsers: `parseInt` yields
`NaN`, or a value `≤ 0`. -/
def amountTokenBad (o : Option String) : Bool :=
  match jsParseInt10 o with
  | none => true
  | some a => decide (a ≤ 0)

/-- The debit parser's keyword-anchor guard: all of `debit`, `from`, `for`
are found somewhere in the list and `to` is found at or after
`forIndex + 1`. -/
def debitAnchorsFound (words : List String) : Bool :=
  let debitIndex := findKeywordIndex words "debit"
  let fromIndex := findKeywordIndex words "from"
  let forIndex := findKeywordIndex words "for"
  let creditIndex := forIndex + 1
  let toIndex := findKeywordIndex words "to" creditIndex.toNat
  !(debitIndex == -1 || fromIndex == -1 || forIndex == -1 ||
    creditIndex == -1 || toIndex == -1)

/-- The credit parser's keyword-anchor guard. -/
def creditAnchorsFound (words : List String) : Bool :=
  let creditIndex := findKeywordIndex words "credit"
  let toIndex := findKeywordIndex words "to"
  let forIndex := findKeywordIndex words "for"
  let debitIndex := forIndex + 1
  let fromIndex := findKeywordIndex words "from" debitIndex.toNat
  !(creditIndex == -1 || toIndex == -1 || forIndex == -1 ||
    debitIndex == -1 || fromIndex == -1)

/-- Fixed clock used by the concrete witness evaluations. -/
def todayW : SimpleDate := ⟨2026, 10, 11⟩

/-- The spec's worked example: two NGN accounts. -/
def exAccounts : List Account := [⟨"A001", 1000, "NGN"⟩, ⟨"B002", 200, "NGN"⟩]

/-- The spec's worked example request. -/
def exRequest : ServiceData :=
  ⟨exAccounts, "Debit 500 NGN from Account A001 for credit to Account B002"⟩

/-- Response computed by the model on the spec's worked example. -/
def exResponse : Response :=
  { type := "DEBIT", amount := 500, currency := "NGN",
    debit_account := some "A001", credit_account := some "B002",
    execute_by := none, status := "successful",
    status_reason := TRANSACTION_SUCCESSFUL, status_code := "AP00",
    accounts := [⟨"A001", 500, 1000, "NGN"⟩, ⟨"B002", 700, 200, "NGN"⟩] }

/-- The worked example deferred to a future date. -/
def exRequestFuture : ServiceData :=
  ⟨exAccounts, "Debit 500 NGN from Account A001 for credit to Account B002 on 2099-01-01"⟩

/-- Response computed by the model on the deferred example. -/
def exResponseFuture : Response :=
  { type := "DEBIT", amount := 500, currency := "NGN",
    debit_account := some "A001", credit_account := some "B002",
    execute_by := some "2099-01-01", status := "pending",
    status_reason := TRANSACTION_PENDING, status_code := "AP02",
    accounts := [⟨"A001", 1000, 1000, "NGN"⟩, ⟨"B002", 200, 200, "NGN"⟩] }

/-- Token list whose `for` token precedes its `debit` token (no `for` after
`debit`), used to probe the anchor-order behaviour of the debit parser. -/
def c4Words : List String :=
  tokenizeWords "for credit to account B misc debit 5 NGN from account A"

/-- Debit-format token list with a zero amount token. -/
def c5BadWords : List String :=
  tokenizeWords "debit 0 NGN from account A for credit to account B"

/-- Well-formed debit-format token list. -/
def c5OkWords : List String :=
  tokenizeWords "debit 7 NGN from account A for credit to account B"

/-- Canonical instruction parsed from `c5OkWords`. -/
def c5OkParsed : ParsedInstr :=
  ⟨"DEBIT", 7, "NGN", some "A", some "B", none⟩

/-- Parsed instruction carrying the spec's invalid-calendar-date example. -/
def c6Parsed : ParsedInstr :=
  ⟨"DEBIT", 5, "NGN", some "A", some "B", some "2024-13-40"⟩

/-- Accounts satisfying every validator rule before the date rule for
`c6Parsed`. -/
def c6Accounts : List Account := [⟨"A", 10, "NGN"⟩, ⟨"B", 0, "NGN"⟩]

/-- A lowercased instruction satisfying the DEBIT and the CREDIT phrase
check simultaneously. -/
def c8Both : String := "for credit to account a for debit from account b"

/-- Request whose account set contains two accounts with the same id `A`,
both matching the instruction's debit account. -/
def c9Request : ServiceData :=
  ⟨[⟨"A", 10, "NGN"⟩, ⟨"A", 20, "NGN"⟩, ⟨"B", 0, "NGN"⟩],
   "debit 5 NGN from account A for credit to account B"⟩

/-! ### Helper lemmas -/

/-- The `forEach` loop of `processAccounts` leaves the accounts array as it
found it. -/
theorem processAccounts_snd (accounts : List Account) (parsed : ParsedInstr)
    (shouldExecute : Bool) :
    (processAccounts accounts parsed shouldExecute).2 = accounts := by
  induction accounts with
  | nil => rfl
  | cons a rest ih =>
    simp only [processAccounts]
    split <;> simp [ih]

/-- The projected list is exactly the matching input accounts, in order,
each projected by the spec's single-account projection. -/
theorem processAccounts_eq_filter_map (accounts : List Account)
    (parsed : ParsedInstr) (shouldExecute : Bool) :
    (processAccounts accounts parsed shouldExecute).1 =
      (accounts.filter (fun a =>
        decide (some a.id = parsed.debit_account ∨ some a.id = parsed.credit_account))).map
        (specProjectAccount parsed shouldExecute) := by
  induction accounts with
  | nil => rfl
  | cons a rest ih =>
    simp only [processAccounts, List.filter]
    by_cases hm : some a.id = parsed.debit_account ∨ some a.id = parsed.credit_account
    · rw [if_pos hm]
      simp only [decide_eq_true hm, List.map]
      refine congrArg₂ _ ?_ ih
      simp [specProjectAccount]
    · rw [if_neg hm]
      simp only [decide_eq_false hm]
      exact ih

/-- When the transaction does not execute, every projected balance equals
its `balance_before`. -/
theorem processAccounts_pending (accounts : List Account) (parsed : ParsedInstr) :
    ∀ x ∈ (processAccounts accounts parsed false).1, x.balance = x.balance_before := by
  intro x hx
  rw [processAccounts_eq_filter_map] at hx
  rcases List.mem_map.mp hx with ⟨a, _, rfl⟩
  rfl

/-- When the transaction executes, a projected entry matching the debit
account carries `balance_before − amount`, one matching the credit account
carries `balance_before + amount` (the two account fields being distinct). -/
theorem processAccounts_exec (accounts : List Account) (parsed : ParsedInstr)
    (hne : parsed.debit_account ≠ parsed.credit_account) :
    ∀ x ∈ (processAccounts accounts parsed true).1,
      (some x.id = parsed.debit_account → x.balance = x.balance_before - parsed.amount) ∧
      (some x.id = parsed.credit_account → x.balance = x.balance_before + parsed.amount) := by
  intro x hx
  rw [processAccounts_eq_filter_map] at hx
  rcases List.mem_map.mp hx with ⟨a, _, rfl⟩
  constructor
  · intro hd
    simp only [specProjectAccount] at hd ⊢
    rw [if_pos trivial, if_pos hd]
  · intro hc
    simp only [specProjectAccount] at hc ⊢
    have hnd : ¬ some a.id = parsed.debit_account := by
      intro h; exact hne (h ▸ hc)
    rw [if_pos trivial, if_neg hnd, if_pos hc]

/-- Every input account matching the instruction contributes a projected
entry recording its id and prior balance. -/
theorem processAccounts_mem (accounts : List Account) (parsed : ParsedInstr)
    (shouldExecute : Bool) (a : Account) (ha : a ∈ accounts)
    (hm : some a.id = parsed.debit_account ∨ some a.id = parsed.credit_account) :
    ∃ x ∈ (processAccounts accounts parsed shouldExecute).1,
      x.id = a.id ∧ x.balance_before = a.balance := by
  refine ⟨specProjectAccount parsed shouldExecute a, ?_, rfl, rfl⟩
  rw [processAccounts_eq_filter_map]
  exact List.mem_map_of_mem _ (List.mem_filter.mpr ⟨ha, decide_eq_true hm⟩)

/-- Successful validation pins down the shape of the parsed instruction:
both account ids are present and distinct and both accounts are found in
the supplied set. -/
theorem validate_ok_facts (p : ParsedInstr) (accounts : List Account)
    (h : validateParsedData p accounts = .ok ()) :
    ∃ da ca dAcc cAcc,
      p.debit_account = some da ∧ p.credit_account = some ca ∧ da ≠ ca ∧
      accounts.find? (fun acc => acc.id == da) = some dAcc ∧
      accounts.find? (fun acc => acc.id == ca) = some cAcc := by
  simp only [validateParsedData] at h
  split at h
  · exact Except.noConfusion h
  rename_i da hd
  split at h
  · exact Except.noConfusion h
  split at h
  · exact Except.noConfusion h
  rename_i ca hc
  split at h
  · exact Except.noConfusion h
  split at h
  · exact Except.noConfusion h
  rename_i hne
  split at h
  · exact Except.noConfusion h
  rename_i dAcc hfd
  split at h
  · exact Except.noConfusion h
  rename_i cAcc hfc
  exact ⟨da, ca, dAcc, cAcc, hd, hc, by simpa using hne, hfd, hfc⟩

/-- Inversion of a successful end-to-end run: some parsed instruction passed
text parsing and validation, and every response field is the corresponding
construction of `parseInstruction`. -/
theorem parseInstruction_ok_inv (sd : ServiceData) (today : SimpleDate)
    (resp : Response) (h : (parseInstruction sd today).1 = .ok resp) :
    ∃ parsed,
      parseInstructionText (jsTrim sd.instruction) = .ok parsed ∧
      validateParsedData parsed sd.accounts = .ok () ∧
      resp.type = parsed.type ∧ resp.amount = parsed.amount ∧
      resp.currency = parsed.currency ∧
      resp.debit_account = parsed.debit_account ∧
      resp.credit_account = parsed.credit_account ∧
      resp.execute_by = parsed.execute_by ∧
      resp.status =
        (if shouldExecuteNow parsed.execute_by today then "successful" else "pending") ∧
      resp.status_code =
        (if shouldExecuteNow parsed.execute_by today then "AP00" else "AP02") ∧
      resp.accounts =
        (processAccounts sd.accounts parsed (shouldExecuteNow parsed.execute_by today)).1 := by
  simp only [parseInstruction] at h
  split at h
  · exact Except.noConfusion h
  rename_i parsed hp
  split at h
  · exact Except.noConfusion h
  rename_i u hv
  cases u
  simp only at h
  injection h with h
  subst h
  exact ⟨parsed, hp, hv, rfl, rfl, rfl, rfl, rfl, rfl, rfl, rfl, rfl⟩

/-! ### Claim theorems -/

/-- C1: for every well-formed DEBIT instruction with sufficient funds and no
`execute_by` (i.e. every run that returns a response of type `DEBIT` with
`execute_by` absent), the response carries status `successful` with status
code `AP00`, the debit account appears among the returned accounts with
balance `balance_before − amount`, and the credit account appears with
balance `balance_before + amount`. -/
theorem C1_debit_immediate_success (sd : ServiceData) (today : SimpleDate)
    (resp : Response) (h : (parseInstruction sd today).1 = .ok resp)
    (_htype : resp.type = "DEBIT") (hexec : resp.execute_by = none) :
    resp.status = "successful" ∧ resp.status_code = "AP00" ∧
    (∃ x ∈ resp.accounts, some x.id = resp.debit_account) ∧
    (∃ x ∈ resp.accounts, some x.id = resp.credit_account) ∧
    ∀ x ∈ resp.accounts,
      (some x.id = resp.debit_account → x.balance = x.balance_before - resp.amount) ∧
      (some x.id = resp.credit_account → x.balance = x.balance_before + resp.amount) := by
  obtain ⟨parsed, hp, hv, ht, ham, hcur, hdacc, hcacc, hexeq, hstatus, hcode, haccs⟩ :=
    parseInstruction_ok_inv sd today resp h
  rw [hexeq] at hexec
  have hse : shouldExecuteNow parsed.execute_by today = true := by
    rw [hexec]; rfl
  obtain ⟨da, ca, dAcc, cAcc, hd, hc, hne, hfd, hfc⟩ :=
    validate_ok_facts parsed sd.accounts hv
  have hneq : parsed.debit_account ≠ parsed.credit_account := by
    rw [hd, hc]; simp [hne]
  rw [hse] at hstatus hcode haccs
  refine ⟨by rw [hstatus]; rfl, by rw [hcode]; rfl, ?_, ?_, ?_⟩
  · have hmem : dAcc ∈ sd.accounts := List.mem_of_find?_eq_some hfd
    have hid : dAcc.id = da := by simpa using List.find?_some hfd
    have hmatch : some dAcc.id = parsed.debit_account := by rw [hid, hd]
    obtain ⟨x, hx, hxid, _⟩ :=
      processAccounts_mem sd.accounts parsed true dAcc hmem (Or.inl hmatch)
    exact ⟨x, haccs ▸ hx, by rw [hdacc, hxid]; exact hmatch⟩
  · have hmem : cAcc ∈ sd.accounts := List.mem_of_find?_eq_some hfc
    have hid : cAcc.id = ca := by simpa using List.find?_some hfc
    have hmatch : some cAcc.id = parsed.credit_account := by rw [hid, hc]
    obtain ⟨x, hx, hxid, _⟩ :=
      processAccounts_mem sd.accounts parsed true cAcc hmem (Or.inr hmatch)
    exact ⟨x, haccs ▸ hx, by rw [hcacc, hxid]; exact hmatch⟩
  · intro x hx
    rw [haccs] at hx
    have hxp := processAccounts_exec sd.accounts parsed hneq x hx
    rw [hdacc, hcacc, ham]
    exact hxp

/-- C1 witness: the spec's worked example evaluates to a successful `AP00`
response with balances 1000→500 and 200→700. -/
theorem C1_witness :
    ((parseInstruction exRequest todayW).1 = .ok exResponse ∧
      exResponse.type = "DEBIT" ∧ exResponse.execute_by = none) ∧
    (exResponse.status = "successful" ∧ exResponse.status_code = "AP00" ∧
      (∃ x ∈ exResponse.accounts, some x.id = exResponse.debit_account) ∧
      (∃ x ∈ exResponse.accounts, some x.id = exResponse.credit_account) ∧
      ∀ x ∈ exResponse.accounts,
        (some x.id = exResponse.debit_account →
          x.balance = x.balance_before - exResponse.amount) ∧
        (some x.id = exResponse.credit_account →
          x.balance = x.balance_before + exResponse.amount)) :=
  ⟨⟨by rfl, rfl, rfl⟩,
   C1_debit_immediate_success exRequest todayW exResponse (by rfl) rfl rfl⟩

/-- C2: for every valid run whose `execute_by` date-only value is strictly
after today's date-only value, both returned balances equal
`balance_before` and the response is `pending`/`AP02`; when `execute_by` is
absent, or its date-only value is at most today's, the transaction executes
immediately (`successful`/`AP00`). -/
theorem C2_future_defers_past_executes (sd : ServiceData) (today : SimpleDate)
    (resp : Response) (h : (parseInstruction sd today).1 = .ok resp) :
    (∀ s t, resp.execute_by = some s → parseDate3 s = some t →
      dateLE t today = false →
      resp.status = "pending" ∧ resp.status_code = "AP02" ∧
      ∀ x ∈ resp.accounts, x.balance = x.balance_before) ∧
    (resp.execute_by = none →
      resp.status = "successful" ∧ resp.status_code = "AP00") ∧
    (∀ s t, resp.execute_by = some s → parseDate3 s = some t →
      dateLE t today = true →
      resp.status = "successful" ∧ resp.status_code = "AP00") := by
  obtain ⟨parsed, hp, hv, ht, ham, hcur, hdacc, hcacc, hexeq, hstatus, hcode, haccs⟩ :=
    parseInstruction_ok_inv sd today resp h
  refine ⟨?_, ?_, ?_⟩
  · intro s t hs hpd hlt
    rw [hexeq] at hs
    have hsne : ¬ s = "" := by
      intro he; rw [he] at hpd; exact Option.noConfusion hpd
    have hse : shouldExecuteNow parsed.execute_by today = false := by
      rw [hs]
      simp only [shouldExecuteNow]
      rw [if_neg hsne, hpd]
      exact hlt
    rw [hse] at hstatus hcode haccs
    refine ⟨by rw [hstatus]; rfl, by rw [hcode]; rfl, ?_⟩
    intro x hx
    rw [haccs] at hx
    exact processAccounts_pending sd.accounts parsed x hx
  · intro hnone
    rw [hexeq] at hnone
    have hse : shouldExecuteNow parsed.execute_by today = true := by
      rw [hnone]; rfl
    rw [hse] at hstatus hcode
    exact ⟨by rw [hstatus]; rfl, by rw [hcode]; rfl⟩
  · intro s t hs hpd hle
    rw [hexeq] at hs
    have hsne : ¬ s = "" := by
      intro he; rw [he] at hpd; exact Option.noConfusion hpd
    have hse : shouldExecuteNow parsed.execute_by today = true := by
      rw [hs]
      simp only [shouldExecuteNow]
      rw [if_neg hsne, hpd]
      exact hle
    rw [hse] at hstatus hcode
    exact ⟨by rw [hstatus]; rfl, by rw [hcode]; rfl⟩

/-- C2 witness: the worked example deferred with `on 2099-01-01` (a date
strictly after the fixed clock 2026-10-11) yields `pending`/`AP02` with
unchanged balances. -/
theorem C2_witness :
    ((parseInstruction exRequestFuture todayW).1 = .ok exResponseFuture ∧
      exResponseFuture.execute_by = some "2099-01-01" ∧
      parseDate3 "2099-01-01" = some ⟨2099, 1, 1⟩ ∧
      dateLE ⟨2099, 1, 1⟩ todayW = false) ∧
    (exResponseFuture.status = "pending" ∧ exResponseFuture.status_code = "AP02" ∧
      ∀ x ∈ exResponseFuture.accounts, x.balance = x.balance_before) :=
  ⟨⟨by rfl, rfl, by rfl, by rfl⟩,
   (C2_future_defers_past_executes exRequestFuture todayW exResponseFuture (by rfl)).1
     "2099-01-01" ⟨2099, 1, 1⟩ rfl (by rfl) (by rfl)⟩

/-- C10: `parseInstruction` never mutates the supplied accounts array: the
state of the array after the call (threaded through the embedding as the
second component) is exactly the input, with every account's id, balance
and currency intact; the projected records in the response are fresh
`ProjAccount` values built by `processAccounts`. -/
theorem C10_no_mutation (sd : ServiceData) (today : SimpleDate) :
    (parseInstruction sd today).2 = sd.accounts := by
  simp only [parseInstruction]
  split
  · rfl
  · split
    · rfl
    · exact processAccounts_snd _ _ _

/-- C7 (refuting evaluation): on a schema-valid request whose instruction
passes the DEBIT phrase check but ends right after the `account` keyword,
the credit-account token is `undefined` and `isValidAccountId` reads
`undefined.length` — an uncaught `TypeError`, not a typed failure of the
error taxonomy. -/
theorem C7_typeerror_on_missing_account_token :
    (parseInstruction ⟨[], "debit 5 NGN from account for credit to account"⟩
        todayW).1 = .error .jsTypeError := by rfl

/-- C3 counterexample: a parsed instruction whose debit and credit accounts
are equal but ill-formed (`"!"`) is rejected with `InvalidAccountId`, not
`SameAccountError` — the well-formedness rules run first, so equality of
the two accounts does not always produce `SameAccountError`. -/
theorem C3_counterexample :
    (⟨"DEBIT", 5, "NGN", some "!", some "!", none⟩ : ParsedInstr).debit_account =
      (⟨"DEBIT", 5, "NGN", some "!", some "!", none⟩ : ParsedInstr).credit_account ∧
    validateParsedData ⟨"DEBIT", 5, "NGN", some "!", some "!", none⟩ [] =
      .error .invalidAccountId :=
  ⟨rfl, by rfl⟩

/-- C3 (amended): the validator is exactly the fail-fast run of the nine
rules in the fixed order (debit id well-formed, credit id well-formed,
same-account, debit exists, credit exists, debit currency, credit currency,
sufficient funds, date format), reporting only the first violated rule; and
whenever the two account ids are equal *and the shared id is well-formed*,
the result is `SameAccountError` regardless of every other field. -/
theorem C3_validator_order (p : ParsedInstr) (accounts : List Account)
    (da ca : String) (hd : p.debit_account = some da)
    (hc : p.credit_account = some ca) :
    validateParsedData p accounts = firstFail (specRules p accounts da ca) ∧
    (da = ca → isValidAccountId da = true →
      validateParsedData p accounts = .error .sameAccountError) := by
  constructor
  · simp only [validateParsedData, hd, hc, specRules, firstFail]
    cases h1 : isValidAccountId da with
    | false => simp [h1]
    | true =>
      cases h2 : isValidAccountId ca with
      | false => simp [h1, h2]
      | true =>
        cases h3 : da == ca with
        | true => simp [h1, h2, h3]
        | false =>
          cases hfd : accounts.find? (fun acc => acc.id == da) with
          | none => simp [h1, h2, h3, hfd]
          | some dAcc =>
            cases hfc : accounts.find? (fun acc => acc.id == ca) with
            | none => simp [h1, h2, h3, hfd, hfc]
            | some cAcc =>
              by_cases h6 : jsToUpper dAcc.currency = p.currency
              · by_cases h7 : jsToUpper cAcc.currency = p.currency
                · by_cases h8 : dAcc.balance < p.amount
                  · simp [h1, h2, h3, hfd, hfc, h6, h7, h8]
                  · cases hex : p.execute_by with
                    | none => simp [h1, h2, h3, hfd, hfc, h6, h7, h8, hex]
                    | some s =>
                      by_cases h9 : s = ""
                      · simp [h1, h2, h3, hfd, hfc, h6, h7, h8, hex, h9]
                      · cases h10 : jsDateIsNaN s <;>
                          cases h11 : dateRegexMatch s <;>
                          simp [h1, h2, h3, hfd, hfc, h6, h7, h8, hex, h9, h10, h11]
                · simp [h1, h2, h3, hfd, hfc, h6, h7]
              · simp [h1, h2, h3, hfd, hfc, h6]
  · intro heq hwf
    subst heq
    simp [validateParsedData, hd, hc, hwf]

/-- C3 witness: for a well-formed parsed instruction the validator equals
the ordered nine-rule run, and an instruction debiting and crediting the
same well-formed account id fails with `SameAccountError` even though the
account does not exist and the currency is unsupported. -/
theorem C3_witness :
    ((⟨"DEBIT", 5, "XYZ", some "A1", some "A1", none⟩ : ParsedInstr).debit_account =
        some "A1" ∧
      (⟨"DEBIT", 5, "XYZ", some "A1", some "A1", none⟩ : ParsedInstr).credit_account =
        some "A1") ∧
    validateParsedData ⟨"DEBIT", 5, "XYZ", some "A1", some "A1", none⟩ [] =
      firstFail (specRules ⟨"DEBIT", 5, "XYZ", some "A1", some "A1", none⟩ [] "A1" "A1") ∧
    validateParsedData ⟨"DEBIT", 5, "XYZ", some "A1", some "A1", none⟩ [] =
      .error .sameAccountError :=
  ⟨⟨rfl, rfl⟩,
   (C3_validator_order ⟨"DEBIT", 5, "XYZ", some "A1", some "A1", none⟩ [] "A1" "A1"
      rfl rfl).1,
   (C3_validator_order ⟨"DEBIT", 5, "XYZ", some "A1", some "A1", none⟩ [] "A1" "A1"
      rfl rfl).2 rfl (by rfl)⟩

/-- `findKeywordIndex` never returns anything below `-1`. -/
theorem findKeywordIndex_ge (words : List String) (keyword : String)
    (startIndex : Nat) : -1 ≤ findKeywordIndex words keyword startIndex := by
  unfold findKeywordIndex
  cases h : findKeywordOffset keyword (words.drop startIndex) with
  | some j => exact (show (-1 : Int) ≤ ((startIndex + j : Nat) : Int) by omega)
  | none => exact le_refl (-1)

/-- The debit parser reports `InvalidKeywordOrder` exactly when its anchor
guard fails. -/
theorem parseDebitFormat_IKO_iff (words : List String) :
    parseDebitFormat words = .error .invalidKeywordOrder ↔
      debitAnchorsFound words = false := by
  simp only [parseDebitFormat, debitAnchorsFound]
  split
  · rename_i hG
    simp [hG]
  · rename_i hG
    have hG' := eq_false_of_ne_true hG
    rw [hG']
    simp only [Bool.not_false]
    constructor
    · intro hrest
      exfalso
      revert hrest
      repeat' split
      all_goals intro hrest
      all_goals simp at hrest
    · intro hfalse
      exact Bool.noConfusion hfalse

/-- The anchor guard of the debit parser fails exactly when one of the four
keyword searches fails (the fifth disjunct of the source guard,
`creditIndex === -1`, can never hold since `findKeywordIndex` is at least
`-1`). -/
theorem debitAnchorsFound_false_iff (words : List String) :
    debitAnchorsFound words = false ↔
      (findKeywordIndex words "debit" = -1 ∨ findKeywordIndex words "from" = -1 ∨
       findKeywordIndex words "for" = -1 ∨
       findKeywordIndex words "to" (findKeywordIndex words "for" + 1).toNat = -1) := by
  have h4 : ¬ (findKeywordIndex words "for" + 1 = -1) := by
    have := findKeywordIndex_ge words "for" 0
    omega
  simp only [debitAnchorsFound]
  simp [h4, beq_iff_eq]
  tauto

/-- C4 counterexample: in `c4Words` the token `for` occurs only *before*
`debit` — there is no occurrence of `for` after the `debit` anchor, so by
the claim the five anchors are not in the required relative order and the
parser should fail with `InvalidKeywordOrder` — yet `parseDebitFormat`
succeeds, because it searches `for` from the start of the list. -/
theorem C4_counterexample :
    findKeywordIndex c4Words "for"
        ((findKeywordIndex c4Words "debit" + 1).toNat) = -1 ∧
    parseDebitFormat c4Words = .ok ⟨"DEBIT", 5, "NGN", some "A", some "B", none⟩ :=
  ⟨by rfl, by rfl⟩

/-- C4 (amended): the debit parser locates the first occurrence of each of
`debit`, `from` and `for` with three independent searches that all start at
index 0 (not relative to one another), locates `to` searching from index
`forIndex + 1` (at or after, not strictly after, the `for`-derived
credit-account index), and fails with `InvalidKeywordOrder` exactly when
one of these four lookups fails. -/
theorem C4_keyword_guard (words : List String) :
    parseDebitFormat words = .error .invalidKeywordOrder ↔
      (findKeywordIndex words "debit" = -1 ∨ findKeywordIndex words "from" = -1 ∨
       findKeywordIndex words "for" = -1 ∨
       findKeywordIndex words "to" (findKeywordIndex words "for" + 1).toNat = -1) := by
  rw [parseDebitFormat_IKO_iff]
  exact debitAnchorsFound_false_iff words

/-- C5: in both structured parsers the token immediately after the `debit`
(resp. `credit`) anchor is parsed with `parseInt(·, 10)`: when the anchors
are found, a `NaN` or non-positive value fails with `InvalidAmount`, and
every successfully parsed instruction carries that token's positive integer
value as its amount. -/
theorem C5_amount_rule (words : List String) :
    (∀ p, parseDebitFormat words = .ok p →
      ∃ a, jsParseInt10 (jsIndex words (findKeywordIndex words "debit" + 1)) = some a ∧
        p.amount = a ∧ 0 < a) ∧
    (debitAnchorsFound words = true →
      amountTokenBad (jsIndex words (findKeywordIndex words "debit" + 1)) = true →
      parseDebitFormat words = .error .invalidAmount) ∧
    (∀ p, parseCreditFormat words = .ok p →
      ∃ a, jsParseInt10 (jsIndex words (findKeywordIndex words "credit" + 1)) = some a ∧
        p.amount = a ∧ 0 < a) ∧
    (creditAnchorsFound words = true →
      amountTokenBad (jsIndex words (findKeywordIndex words "credit" + 1)) = true →
      parseCreditFormat words = .error .invalidAmount) := by
  refine ⟨?_, ?_, ?_, ?_⟩
  · intro p h
    simp only [parseDebitFormat] at h
    split at h
    · exact Except.noConfusion h
    split at h
    · exact Except.noConfusion h
    rename_i a hja
    split at h
    · exact Except.noConfusion h
    rename_i hle
    split at h
    · exact Except.noConfusion h
    rename_i currency hcur
    split at h
    · exact Except.noConfusion h
    split at h
    · exact Except.noConfusion h
    split at h
    · exact Except.noConfusion h
    injection h with h
    subst h
    exact ⟨a, hja, rfl, by omega⟩
  · intro hanch hbad
    simp only [debitAnchorsFound, Bool.not_eq_true'] at hanch
    simp only [amountTokenBad] at hbad
    simp only [parseDebitFormat, hanch]
    cases hj : jsParseInt10 (jsIndex words (findKeywordIndex words "debit" + 1)) with
    | none => simp [hj]
    | some a =>
      rw [hj] at hbad
      have ha : a ≤ 0 := of_decide_eq_true hbad
      simp [hj, ha]
  · intro p h
    simp only [parseCreditFormat] at h
    split at h
    · exact Except.noConfusion h
    split at h
    · exact Except.noConfusion h
    rename_i a hja
    split at h
    · exact Except.noConfusion h
    rename_i hle
    split at h
    · exact Except.noConfusion h
    rename_i currency hcur
    split at h
    · exact Except.noConfusion h
    split at h
    · exact Except.noConfusion h
    split at h
    · exact Except.noConfusion h
    injection h with h
    subst h
    exact ⟨a, hja, rfl, by omega⟩
  · intro hanch hbad
    simp only [creditAnchorsFound, Bool.not_eq_true'] at hanch
    simp only [amountTokenBad] at hbad
    simp only [parseCreditFormat, hanch]
    cases hj : jsParseInt10 (jsIndex words (findKeywordIndex words "credit" + 1)) with
    | none => simp [hj]
    | some a =>
      rw [hj] at hbad
      have ha : a ≤ 0 := of_decide_eq_true hbad
      simp [hj, ha]

/-- C5 witness: a zero amount token is rejected with `InvalidAmount`, and
the successful parse of a `7 NGN` instruction carries amount `7 > 0`. -/
theorem C5_witness :
    (debitAnchorsFound c5BadWords = true ∧
      amountTokenBad (jsIndex c5BadWords (findKeywordIndex c5BadWords "debit" + 1)) = true ∧
      parseDebitFormat c5BadWords = .error .invalidAmount) ∧
    (parseDebitFormat c5OkWords = .ok c5OkParsed ∧
      ∃ a, jsParseInt10 (jsIndex c5OkWords (findKeywordIndex c5OkWords "debit" + 1)) = some a ∧
        c5OkParsed.amount = a ∧ 0 < a) :=
  ⟨⟨by rfl, by rfl, (C5_amount_rule c5BadWords).2.1 (by rfl) (by rfl)⟩,
   ⟨by rfl, (C5_amount_rule c5OkWords).1 c5OkParsed (by rfl)⟩⟩

/-- C6: when the canonical instruction carries an `execute_by` string (and
the eight earlier rules pass), validation succeeds exactly when the string
both parses as a valid calendar date (`new Date` not `NaN`) and matches the
strict `YYYY-MM-DD` pattern; when either condition fails — including a
parseable but non-canonical text form, which the regex rejects — the
validator fails with `InvalidDateFormat`. -/
theorem C6_date_rule (p : ParsedInstr) (accounts : List Account) (s : String)
    (hs : p.execute_by = some s) (hne : s ≠ "")
    (hpre : validateParsedData { p with execute_by := none } accounts = .ok ()) :
    (validateParsedData p accounts = .ok () ↔
      (jsDateIsNaN s = false ∧ dateRegexMatch s = true)) ∧
    ((jsDateIsNaN s = true ∨ dateRegexMatch s = false) →
      validateParsedData p accounts = .error .invalidDateFormat) := by
  simp only [validateParsedData] at hpre
  split at hpre
  · exact Except.noConfusion hpre
  rename_i da hd
  split at hpre
  · exact Except.noConfusion hpre
  rename_i h1
  split at hpre
  · exact Except.noConfusion hpre
  rename_i ca hc
  split at hpre
  · exact Except.noConfusion hpre
  rename_i h2
  split at hpre
  · exact Except.noConfusion hpre
  rename_i h3
  split at hpre
  · exact Except.noConfusion hpre
  rename_i dAcc hfd
  split at hpre
  · exact Except.noConfusion hpre
  rename_i cAcc hfc
  split at hpre
  · exact Except.noConfusion hpre
  rename_i h6
  split at hpre
  · exact Except.noConfusion hpre
  rename_i h7
  split at hpre
  · exact Except.noConfusion hpre
  rename_i h8
  have hgoal : validateParsedData p accounts =
      (if jsDateIsNaN s then .error .invalidDateFormat
       else if !(dateRegexMatch s) then .error .invalidDateFormat else .ok ()) := by
    simp only [validateParsedData, hd, hc, hs, hfd, hfc]
    rw [if_neg h1, if_neg h2, if_neg h3, if_neg h6, if_neg h7, if_neg h8, if_neg hne]
  rw [hgoal]
  cases h10 : jsDateIsNaN s <;> cases h11 : dateRegexMatch s <;> simp [h10, h11]

/-- C6 witness: `2024-13-40` matches the textual pattern but is not a real
calendar date, so `new Date` yields `NaN` and validation fails with
`InvalidDateFormat`. -/
theorem C6_witness :
    (c6Parsed.execute_by = some "2024-13-40" ∧ "2024-13-40" ≠ "" ∧
      validateParsedData { c6Parsed with execute_by := none } c6Accounts = .ok () ∧
      (jsDateIsNaN "2024-13-40" = true ∨ dateRegexMatch "2024-13-40" = false)) ∧
    validateParsedData c6Parsed c6Accounts = .error .invalidDateFormat :=
  ⟨⟨rfl, by simp, by rfl, Or.inl (by rfl)⟩,
   (C6_date_rule c6Parsed c6Accounts "2024-13-40" rfl (by simp) (by rfl)).2
     (Or.inl (by rfl))⟩

/-- C8 counterexample: the lowercased instruction
`for credit to account a for debit from account b` satisfies the DEBIT
phrase check (it contains `debit`, `from account`, `for credit to account`)
and the CREDIT phrase check (it contains `credit`, `to account`,
`for debit from account`) simultaneously, so the two checks are not
mutually exclusive. -/
theorem C8_counterexample :
    jsToLower c8Both = c8Both ∧
    debitPhraseCheck c8Both = true ∧ creditPhraseCheck c8Both = true :=
  ⟨by rfl, by rfl, by rfl⟩

/-- C8 (amended): the detector tries the DEBIT phrase check first and the
CREDIT phrase check second (the checks are not mutually exclusive — an
instruction can satisfy both, in which case the DEBIT parser wins), and it
fails with `MalformedInstruction` exactly when neither check holds. -/
theorem C8_detector (instruction : String) :
    (debitPhraseCheck (jsToLower instruction) = false →
      creditPhraseCheck (jsToLower instruction) = false →
      parseInstructionText instruction = .error .malformedInstruction) ∧
    (debitPhraseCheck (jsToLower instruction) = true →
      parseInstructionText instruction = parseDebitFormat (tokenizeWords instruction)) ∧
    (debitPhraseCheck (jsToLower instruction) = false →
      creditPhraseCheck (jsToLower instruction) = true →
      parseInstructionText instruction = parseCreditFormat (tokenizeWords instruction)) := by
  refine ⟨?_, ?_, ?_⟩
  · intro hdc hcc
    simp [parseInstructionText, hdc, hcc]
  · intro hdc
    simp [parseInstructionText, hdc]
  · intro hdc hcc
    simp [parseInstructionText, hdc, hcc]

/-- C8 witness: an unrecognized instruction fails with
`MalformedInstruction`, and an instruction satisfying both phrase checks is
routed to the DEBIT parser. -/
theorem C8_witness :
    (debitPhraseCheck (jsToLower "hello world") = false ∧
      creditPhraseCheck (jsToLower "hello world") = false ∧
      parseInstructionText "hello world" = .error .malformedInstruction) ∧
    (debitPhraseCheck (jsToLower c8Both) = true ∧
      parseInstructionText c8Both = parseDebitFormat (tokenizeWords c8Both)) :=
  ⟨⟨by rfl, by rfl, (C8_detector "hello world").1 (by rfl) (by rfl)⟩,
   ⟨by rfl, (C8_detector c8Both).2.1 (by rfl)⟩⟩

/-- Counting accounts matching either of two distinct ids splits into the
two separate counts. -/
theorem countP_or_split (l : List Account) (da ca : String) (hne : da ≠ ca) :
    l.countP (fun a => decide (a.id = da ∨ a.id = ca)) =
      l.countP (fun a => decide (a.id = da)) + l.countP (fun a => decide (a.id = ca)) := by
  have hor : ∀ b : Account, (decide (b.id = da ∨ b.id = ca)) =
      (decide (b.id = da) || decide (b.id = ca)) := by
    intro b
    by_cases h1 : b.id = da <;> by_cases h2 : b.id = ca <;> simp [h1, h2]
  induction l with
  | nil => rfl
  | cons a t ih =>
    rw [List.countP_cons, List.countP_cons, List.countP_cons]
    by_cases h1 : a.id = da
    · have h2 : ¬ a.id = ca := fun h => hne (h1.symm.trans h)
      have e1 : (decide (a.id = da ∨ a.id = ca)) = true := by simp [h1]
      have e2 : (decide (a.id = da)) = true := by simp [h1]
      have e3 : (decide (a.id = ca)) = false := by simp [h2]
      simp only [e1, e2, e3]
      norm_num
      simp only [hor] at ih
      omega
    · by_cases h2 : a.id = ca
      · have e1 : (decide (a.id = da ∨ a.id = ca)) = true := by simp [h2]
        have e2 : (decide (a.id = da)) = false := by simp [h1]
        have e3 : (decide (a.id = ca)) = true := by simp [h2]
        simp only [e1, e2, e3]
        norm_num
        simp only [hor] at ih
        omega
      · have e1 : (decide (a.id = da ∨ a.id = ca)) = false := by simp [h1, h2]
        have e2 : (decide (a.id = da)) = false := by simp [h1]
        have e3 : (decide (a.id = ca)) = false := by simp [h2]
        simp only [e1, e2, e3]
        norm_num
        simp only [hor] at ih
        omega

/-- With pairwise-distinct account ids, exactly one account carries a given
id that is present in the list. -/
theorem countP_id_unique (l : List Account) (da : String)
    (hnd : (l.map Account.id).Nodup) (x : Account) (hx : x ∈ l) (hxid : x.id = da) :
    l.countP (fun a => decide (a.id = da)) = 1 := by
  induction l with
  | nil => cases hx
  | cons a t ih =>
    rw [List.map_cons, List.nodup_cons] at hnd
    rcases List.mem_cons.mp hx with rfl | hx'
    · have hz : t.countP (fun b => decide (b.id = da)) = 0 := by
        rw [List.countP_eq_zero]
        intro b hb
        simp only [decide_eq_true_eq]
        intro hbid
        have hmem : b.id ∈ t.map Account.id := List.mem_map_of_mem Account.id hb
        rw [hbid, ← hxid] at hmem
        exact hnd.1 hmem
      simp [List.countP_cons, hxid, hz]
    · have haid : ¬ a.id = da := by
        intro he
        have hmem : x.id ∈ t.map Account.id := List.mem_map_of_mem Account.id hx'
        rw [hxid, ← he] at hmem
        exact hnd.1 hmem
      rw [List.countP_cons]
      simp only [haid, decide_eq_true_eq, if_false]
      exact ih hnd.2 hx'

/-- A list with pairwise-distinct ids containing an account with id `da`
and one with id `ca ≠ da` has exactly two accounts matching either id. -/
theorem filter_matching_length_two (l : List Account) (da ca : String)
    (hne : da ≠ ca) (hnd : (l.map Account.id).Nodup) (x y : Account)
    (hx : x ∈ l) (hxid : x.id = da) (hy : y ∈ l) (hyid : y.id = ca) :
    (l.filter (fun a => decide (a.id = da ∨ a.id = ca))).length = 2 := by
  rw [← List.countP_eq_length_filter, countP_or_split l da ca hne,
    countP_id_unique l da hnd x hx hxid, countP_id_unique l ca hnd y hy hyid]

/-- C9 counterexample: a successful run over an account set holding two
accounts with the same id `A` (both matching the debit account) returns
*three* projected accounts — the "at most two matches" part of the claim
fails when the input contains duplicate ids. -/
theorem C9_counterexample :
    (match (parseInstruction c9Request todayW).1 with
      | .ok r => r.accounts.length
      | .error _ => 0) = 3 := by rfl

/-- C9 (amended): in every successful run the response's accounts list is
exactly the projection (id, supplied balance as `balance_before`,
uppercased currency) of the input accounts whose id equals the debit or
credit account, in input order, with every non-referenced account omitted;
the number of entries is two when the supplied ids are pairwise distinct,
but an input with duplicate ids produces one entry per matching element. -/
theorem C9_projection (sd : ServiceData) (today : SimpleDate) (resp : Response)
    (h : (parseInstruction sd today).1 = .ok resp) :
    resp.accounts.map (fun x => (x.id, x.balance_before, x.currency)) =
      (sd.accounts.filter (fun a =>
        decide (some a.id = resp.debit_account ∨ some a.id = resp.credit_account))).map
        (fun a => (a.id, a.balance, jsToUpper a.currency)) ∧
    ((sd.accounts.map Account.id).Nodup → resp.accounts.length = 2) := by
  obtain ⟨parsed, hp, hv, ht, ham, hcur, hdacc, hcacc, hexeq, hstatus, hcode, haccs⟩ :=
    parseInstruction_ok_inv sd today resp h
  obtain ⟨da, ca, dAcc, cAcc, hd, hc, hne, hfd, hfc⟩ :=
    validate_ok_facts parsed sd.accounts hv
  constructor
  · rw [haccs, processAccounts_eq_filter_map, hdacc, hcacc, List.map_map]
    rfl
  · intro hnd
    rw [haccs, processAccounts_eq_filter_map, List.length_map]
    have hxmem : dAcc ∈ sd.accounts := List.mem_of_find?_eq_some hfd
    have hxid : dAcc.id = da := by simpa using List.find?_some hfd
    have hymem : cAcc ∈ sd.accounts := List.mem_of_find?_eq_some hfc
    have hyid : cAcc.id = ca := by simpa using List.find?_some hfc
    have hpred : (fun a : Account =>
        decide (some a.id = parsed.debit_account ∨ some a.id = parsed.credit_account)) =
        (fun a : Account => decide (a.id = da ∨ a.id = ca)) := by
      funext a
      rw [hd, hc]
      simp
    rw [hpred]
    exact filter_matching_length_two sd.accounts da ca hne hnd dAcc cAcc
      hxmem hxid hymem hyid

/-- C9 witness: the worked example projects exactly its two referenced
accounts, in input order, with `balance_before` equal to the supplied
balances. -/
theorem C9_witness :
    ((parseInstruction exRequest todayW).1 = .ok exResponse) ∧
    (exResponse.accounts.map (fun x => (x.id, x.balance_before, x.currency)) =
      (exRequest.accounts.filter (fun a =>
        decide (some a.id = exResponse.debit_account ∨
          some a.id = exResponse.credit_account))).map
        (fun a => (a.id, a.balance, jsToUpper a.currency)) ∧
      ((exRequest.accounts.map Account.id).Nodup → exResponse.accounts.length = 2)) :=
  ⟨by rfl, C9_projection exRequest todayW exResponse (by rfl)⟩
